import Mathlib

/-!
Shallow embedding of the Bor consensus engine (`consensus/bor/bor.go`).

Pure functions of the source are translated directly; effectful steps
(EVM calls, Heimdall HTTP fetches, chain/database lookups, the system
clock) are passed in as explicit arguments or pre-computed results, so
each embedded function is a pure function of the data the Go code
actually branches on.  Machine integers (Go `uint64`) are modelled as
`Nat` with an explicit `% 2^64` at the operations where the Go code can
wrap.
-/

namespace Bor

/-- Width of Go `uint64` arithmetic: 2 ^ 64. -/
def u64 : Nat := 2 ^ 64

/-- Generic Go `error` value (identified by its message). -/
structure GoError where
  msg : String
deriving DecidableEq, Repr

/-- Bor protocol constant `extraVanity`: 32 bytes of signer vanity. -/
def extraVanity : Nat := 32

/-- Bor protocol constant `extraSeal`: 65 bytes of secp256k1 seal. -/
def extraSeal : Nat := 65

/-- Bor constant `validatorHeaderBytesLength` = address (20) + power (20). -/
def validatorHeaderBytesLength : Nat := 40

/-- Bor constant `allowFutureBlockTimeSeconds` = 3. -/
def allowFutureBlockTimeSeconds : Nat := 3

/-- The constant `uncleHash = types.CalcUncleHash(nil)`, i.e.
Keccak256(RLP([])), as a 256-bit number. -/
def uncleHashConstant : Nat :=
  0x1dcc4de8dec75d7aab85b567b6ccd41ad312451b948a7413f0a142fd40d49347

/-- The subset of `params.BorConfig` the embedded functions read. -/
structure BorConfig where
  period : Nat
  sprint : Nat
  producerDelay : Nat
  backupMultiplier : Nat
deriving DecidableEq, Repr

/-- `CalcProducerDelay` from bor.go: base delay is `Period`, replaced by
`ProducerDelay` on the first block of a sprint; an out-of-turn signer
(`succession > 0`) adds `succession * BackupMultiplier`.  The additions
and the multiplication are Go `uint64` operations, hence the `% u64`. -/
def calcProducerDelay (number : Nat) (succession : Nat) (c : BorConfig) : Nat :=
  let delay := if number % c.sprint == 0 then c.producerDelay else c.period
  if succession > 0 then (delay + (succession * c.backupMultiplier) % u64) % u64
  else delay

/-- `Span` from span.go / bor.go: a range of blocks with an id. -/
structure Span where
  id : Nat
  startBlock : Nat
  endBlock : Nat
deriving DecidableEq, Repr

/-- `needToCommitSpan` from bor.go: `span == nil` gives false; an
uninitialized span (`EndBlock == 0`) gives true; the first block of the
last sprint of the span (`EndBlock > Sprint` and
`EndBlock - Sprint + 1 == headerNumber`, `uint64` subtraction guarded by
the comparison) gives true; anything else gives false. -/
def needToCommitSpan (span : Option Span) (headerNumber : Nat) (c : BorConfig) : Bool :=
  match span with
  | none => false
  | some s =>
    if s.endBlock == 0 then true
    else if s.endBlock > c.sprint && s.endBlock - c.sprint + 1 == headerNumber then true
    else false

/-- `applyMessage` from bor.go.  The construction of the EVM and the
`vmenv.Call` on the system message are abstracted as `call`, a function
from the incoming state to the state after the call together with the
call's error; `finalise` stands for `state.Finalise(true)`.  The Go
function calls `state.Finalise(true)` exactly when the call errs, and
returns `nil` unconditionally. -/
def applyMessage {σ : Type} (call : σ → σ × Option GoError) (finalise : σ → σ)
    (st : σ) : σ × Option GoError :=
  let res := call st
  match res.2 with
  | some _ => (finalise res.1, none)
  | none => (res.1, none)

/-- The distinct error values `verifyHeader` and its helpers can return. -/
inductive BorError where
  | unknownBlock
  | futureBlock
  | missingVanity
  | missingSignature
  | extraValidators
  | invalidSpanValidators
  | invalidMixDigest
  | invalidUncleHash
  | invalidDifficulty
deriving DecidableEq, Repr

/-- The fields of `types.Header` the standalone checks of `verifyHeader`
read.  `number` is an `Option` because the Go code checks
`header.Number == nil`; hashes are 256-bit numbers. -/
structure Header where
  number : Option Nat
  time : Nat
  extra : List Nat
  mixDigest : Nat
  uncleHash : Nat
  difficulty : Option Nat
deriving DecidableEq, Repr

/-- `validateHeaderExtraField` from bor.go: the extra-data must hold at
least the 32-byte vanity, and at least vanity plus the 65-byte seal. -/
def validateHeaderExtraField (extraBytes : List Nat) : Option BorError :=
  if extraBytes.length < extraVanity then some .missingVanity
  else if extraBytes.length < extraVanity + extraSeal then some .missingSignature
  else none

/-- The standalone check sequence of `verifyHeader` from bor.go, in
source order: nil number, future-block bound, extra-field lengths, the
sprint-end validator-bytes checks, mix digest, uncle hash, and
difficulty presence.  `now` is the value of `time.Now().Unix()`.
A result of `none` means the standalone checks all passed and the Go
code proceeds to fork-hash verification and `verifyCascadingFields`,
which are outside this model. -/
def verifyHeaderStandalone (c : BorConfig) (now : Nat) (h : Header) : Option BorError :=
  match h.number with
  | none => some .unknownBlock
  | some number =>
    if h.time > now + allowFutureBlockTimeSeconds then some .futureBlock
    else match validateHeaderExtraField h.extra with
    | some e => some e
    | none =>
      let isSprintEnd := (number + 1) % c.sprint == 0
      let signersBytes := h.extra.length - extraVanity - extraSeal
      if !isSprintEnd && signersBytes != 0 then some .extraValidators
      else if isSprintEnd && signersBytes % validatorHeaderBytesLength != 0 then
        some .invalidSpanValidators
      else if h.mixDigest != 0 then some .invalidMixDigest
      else if h.uncleHash != uncleHashConstant then some .invalidUncleHash
      else if number > 0 && h.difficulty.isNone then some .invalidDifficulty
      else none

/-- A sprint-end header (number 3, sprint 4) whose validator region is
empty: extra-data is exactly vanity (32) plus seal (65) bytes. -/
def sprintEndEmptyHeader : Header :=
  { number := some 3, time := 0, extra := List.replicate 97 0,
    mixDigest := 0, uncleHash := uncleHashConstant, difficulty := some 1 }

/-- A sprint-end header (number 3, sprint 4) whose validator region is a
single byte, hence not a multiple of 40. -/
def sprintEndOddHeader : Header :=
  { number := some 3, time := 0, extra := List.replicate 98 0,
    mixDigest := 0, uncleHash := uncleHashConstant, difficulty := some 1 }

/-- A non-sprint-end header with time 3 (used against `now = 0`). -/
def timeThreeHeader : Header :=
  { number := some 1, time := 3, extra := List.replicate 97 0,
    mixDigest := 0, uncleHash := uncleHashConstant, difficulty := some 1 }

/-- A non-sprint-end header with time 4 (used against `now = 0`). -/
def timeFourHeader : Header :=
  { number := some 1, time := 4, extra := List.replicate 97 0,
    mixDigest := 0, uncleHash := uncleHashConstant, difficulty := some 1 }

/-- The Go error value `errUnknownBlock`. -/
def errUnknownBlock : GoError := ⟨"unknown block"⟩

/-- The Go error value `consensus.ErrUnknownAncestor`. -/
def errUnknownAncestor : GoError := ⟨"unknown ancestor"⟩

/-- `EventRecordWithTime` from the Heimdall client: the fields that
`CommitStates` and `validateEventRecord` read.  `time` is a Unix
timestamp; `contract`, `txHash` are numbers standing for the address and
hash. -/
structure EventRecord where
  id : Nat
  chainID : String
  time : Nat
  contract : Nat
  data : List Nat
  txHash : Nat
deriving DecidableEq, Repr

/-- `types.StateSyncData` as assembled inside `CommitStates`. -/
structure StateSyncData where
  id : Nat
  contract : Nat
  data : List Nat
  txHash : Nat
deriving DecidableEq, Repr

/-- The `StateSyncData` literal built from an event inside the
`CommitStates` loop. -/
def stateSyncOf (e : EventRecord) : StateSyncData :=
  { id := e.id, contract := e.contract, data := e.data, txHash := e.txHash }

/-- `validateEventRecord` from bor.go as the validity predicate: the Go
function returns an `InvalidStateReceivedError` exactly when this is
false — the id is not `lastStateID + 1`, the chain id mismatches, or the
event time is not strictly before `to`. -/
def validateEventRecord (e : EventRecord) (lastStateID : Nat) (toTime : Nat)
    (chainID : String) : Bool :=
  lastStateID + 1 == e.id && e.chainID == chainID && decide (e.time < toTime)

/-- The event-processing loop of `CommitStates` from bor.go, applied to
the already-fetched (and override-truncated) event list.  An event with
`ID <= lastStateID` is skipped (the loop's `continue`); an event failing
`validateEventRecord` breaks the loop; otherwise its `StateSyncData` is
recorded and `lastStateID` advances.  Returns the recorded list and the
final `lastStateID`.  The call to `GenesisContractsClient.CommitState`
(whose source file is not in this repository) is modelled from the spec:
it invokes the state-receiver contract via a system message, whose EVM
errors are swallowed by `applyMessage`, so it never returns an error. -/
def commitStates (chainID : String) (toTime : Nat) :
    Nat → List EventRecord → List StateSyncData × Nat
  | lastStateID, [] => ([], lastStateID)
  | lastStateID, e :: rest =>
    if e.id ≤ lastStateID then commitStates chainID toTime lastStateID rest
    else if validateEventRecord e lastStateID toTime chainID then
      (stateSyncOf e :: (commitStates chainID toTime (lastStateID + 1) rest).1,
        (commitStates chainID toTime (lastStateID + 1) rest).2)
    else ([], lastStateID)

/-- Spec-side description of the state-sync loop: how many leading
events validate sequentially starting from `lastStateID`. -/
def commitRunLen (chainID : String) (toTime : Nat) : Nat → List EventRecord → Nat
  | _, [] => 0
  | lastStateID, e :: rest =>
    if validateEventRecord e lastStateID toTime chainID then
      commitRunLen chainID toTime (lastStateID + 1) rest + 1
    else 0

/-- Event ids strictly increase along the list and all exceed `last` —
true of every Heimdall response to a `from-id` query. -/
def idsAscendFrom : Nat → List EventRecord → Bool
  | _, [] => true
  | last, e :: rest => decide (last < e.id) && idsAscendFrom e.id rest

/-- Concrete events for the state-sync scenarios (chain id "15001",
window end 100). -/
def eventTen : EventRecord :=
  { id := 10, chainID := "15001", time := 5, contract := 1, data := [7], txHash := 1 }

/-- Event with id 11 for the state-sync scenarios. -/
def eventEleven : EventRecord :=
  { id := 11, chainID := "15001", time := 5, contract := 1, data := [8], txHash := 2 }

/-- Event with id 12 for the state-sync scenarios. -/
def eventTwelve : EventRecord :=
  { id := 12, chainID := "15001", time := 6, contract := 2, data := [9], txHash := 3 }

/-- Event with id 14 for the state-sync scenarios (a gap after 12). -/
def eventFourteen : EventRecord :=
  { id := 14, chainID := "15001", time := 7, contract := 3, data := [10], txHash := 4 }

/-- What `Finalize` leaves behind for its caller: the state-sync data it
pushed to the blockchain via `SetStateSync` (`none` when it returned
early), and the error it surfaces — the Go function has no error return
at all, which the model renders as an `err` field that is `none` in
every branch. -/
structure FinalizeResult where
  stateSyncPushed : Option (List StateSyncData)
  err : Option GoError
deriving DecidableEq, Repr

/-- The tail both finalizers share: `changeContractCodeIfNeeded`
followed by root/uncle assignment and `SetStateSync`.  An error from the
code change makes `Finalize` return early surfacing nothing. -/
def finalizeTail (ssd : List StateSyncData) (codeChange : Option GoError) :
    FinalizeResult :=
  match codeChange with
  | some _ => { stateSyncPushed := none, err := none }
  | none => { stateSyncPushed := some ssd, err := none }

/-- `Finalize` from bor.go, as a function of the block position and the
outcomes of its effectful steps: `spanResult` is the error of
`checkAndCommitSpan`, `statesResult` the outcome of `CommitStates`, and
`codeChange` the error of `changeContractCodeIfNeeded`.  On a sprint
boundary a failing span commit or state-sync commit logs and returns
early: no error is surfaced (the function returns nothing) and
`SetStateSync` is never reached. -/
def finalize (number : Nat) (c : BorConfig) (withoutHeimdall : Bool)
    (spanResult : Option GoError)
    (statesResult : Except GoError (List StateSyncData))
    (codeChange : Option GoError) : FinalizeResult :=
  if number % c.sprint == 0 then
    match spanResult with
    | some _ => { stateSyncPushed := none, err := none }
    | none =>
      if withoutHeimdall then finalizeTail [] codeChange
      else
        match statesResult with
        | .error _ => { stateSyncPushed := none, err := none }
        | .ok ssd => finalizeTail ssd codeChange
  else finalizeTail [] codeChange

/-- The assembled block `FinalizeAndAssemble` returns (the fields the
model tracks: the state-sync data pushed alongside it). -/
structure FinalBlock where
  stateSync : List StateSyncData
deriving DecidableEq, Repr

/-- The shared tail of `FinalizeAndAssemble`: a code-change error is
returned to the caller; otherwise the block is assembled. -/
def finalizeAndAssembleTail (ssd : List StateSyncData)
    (codeChange : Option GoError) : Except GoError FinalBlock :=
  match codeChange with
  | some e => .error e
  | none => .ok { stateSync := ssd }

/-- `FinalizeAndAssemble` from bor.go, over the same inputs as
`finalize`: on a sprint boundary a failing span commit or state-sync
commit is logged AND returned to the caller, with no block produced. -/
def finalizeAndAssemble (number : Nat) (c : BorConfig) (withoutHeimdall : Bool)
    (spanResult : Option GoError)
    (statesResult : Except GoError (List StateSyncData))
    (codeChange : Option GoError) : Except GoError FinalBlock :=
  if number % c.sprint == 0 then
    match spanResult with
    | some e => .error e
    | none =>
      if withoutHeimdall then finalizeAndAssembleTail [] codeChange
      else
        match statesResult with
        | .error e => .error e
        | .ok ssd => finalizeAndAssembleTail ssd codeChange
  else finalizeAndAssembleTail [] codeChange

/-- The timestamp part of `Prepare` from bor.go (its final lines):
`parentTime` is `parent.Time` when the parent lookup succeeded,
`signerIsZero` the test `c.signer == common.Address{}`, and
`successionRes` the outcome of `snap.GetSignerSuccessionNumber` for the
configured signer.  `header.Time` is set to
`parent.Time + CalcProducerDelay(...)` (`uint64` addition), raised to
`now` when it lies in the past. -/
def prepareTime (parentTime : Option Nat) (signerIsZero : Bool)
    (successionRes : Except GoError Nat) (number now : Nat) (c : BorConfig) :
    Except GoError Nat :=
  match parentTime with
  | none => .error errUnknownAncestor
  | some pt =>
    match (if signerIsZero then Except.ok 0 else successionRes) with
    | .error e => .error e
    | .ok succession =>
      let t := (pt + calcProducerDelay number succession c) % u64
      .ok (if t < now then now else t)

/-- How the leading checks of `Seal` from bor.go exit: an error return,
a silent `return nil` that never emits to the results channel (the
"Sealing paused" path), or falling through to the sealing work. -/
inductive SealOutcome where
  | fail (e : GoError)
  | skipSealing
  | proceed
deriving DecidableEq, Repr

/-- The leading checks of `Seal` from bor.go: block number 0 is an
unknown-block error; a 0-period chain with no transactions logs
"Sealing paused" and returns nil without ever emitting a block. -/
def sealGate (number : Nat) (period : Nat) (txCount : Nat) : SealOutcome :=
  if number == 0 then .fail errUnknownBlock
  else if period == 0 && txCount == 0 then .skipSealing
  else .proceed

/-- `Validator` from validator.go: address and voting power. -/
structure Validator where
  address : Nat
  votingPower : Int
deriving DecidableEq, Repr

/-- How a contract-reading method can leave its caller: a normal value,
an error return, or a Go `panic`. -/
inductive CallOutcome (α : Type) where
  | ok (val : α)
  | fail (e : GoError)
  | panics (e : GoError)
deriving DecidableEq, Repr

/-- `GetCurrentValidators` from bor.go, over the outcomes of its three
effectful steps: ABI packing, the `ethAPI.Call`, and ABI unpacking.  A
failing `Call` is met with `panic(err)` — the commented-out
`return nil, err` is dead code. -/
def getCurrentValidators (packResult : Except GoError (List Nat))
    (call : List Nat → Except GoError (List Nat))
    (unpack : List Nat → Except GoError (List Validator)) :
    CallOutcome (List Validator) :=
  match packResult with
  | .error e => .fail e
  | .ok data =>
    match call data with
    | .error e => .panics e
    | .ok result =>
      match unpack result with
      | .error e => .fail e
      | .ok vals => .ok vals

/-- `GetCurrentValidatorsByBlockNrOrHash` from bor.go, over the same
outcomes: a failing `Call` is returned as an error to the caller. -/
def getCurrentValidatorsByBlockNrOrHash (packResult : Except GoError (List Nat))
    (call : List Nat → Except GoError (List Nat))
    (unpack : List Nat → Except GoError (List Validator)) :
    CallOutcome (List Validator) :=
  match packResult with
  | .error e => .fail e
  | .ok data =>
    match call data with
    | .error e => .fail e
    | .ok result =>
      match unpack result with
      | .error e => .fail e
      | .ok vals => .ok vals

theorem calcProducerDelay_zero (number : Nat) (c : BorConfig) :
    calcProducerDelay number 0 c
      = (if number % c.sprint == 0 then c.producerDelay else c.period) := by
  simp [calcProducerDelay]

/-- C3: `needToCommitSpan` returns false on a nil span; otherwise it
returns true exactly when the span's end block is 0, or the end block
exceeds the sprint length and the header number is
`endBlock - sprint + 1` (the first block of the final sprint). -/
theorem c3_need_to_commit_span (span : Option Span) (n : Nat) (c : BorConfig) :
    needToCommitSpan span n c = true ↔
      ∃ s, span = some s ∧
        (s.endBlock = 0 ∨ (s.endBlock > c.sprint ∧ n = s.endBlock - c.sprint + 1)) := by
  cases span with
  | none => simp [needToCommitSpan]
  | some s =>
    simp only [needToCommitSpan, Option.some.injEq]
    constructor
    · intro h
      refine ⟨s, rfl, ?_⟩
      by_cases h0 : s.endBlock = 0
      · exact Or.inl h0
      · simp [h0] at h
        exact Or.inr ⟨h.1, h.2.symm⟩
    · rintro ⟨s', hs', h⟩
      subst hs'
      rcases h with h0 | ⟨hgt, hn⟩
      · simp [h0]
      · by_cases h0 : s.endBlock = 0
        · simp [h0]
        · simp [h0, hgt, hn]

/-- C4: `applyMessage` returns `nil` for every system message; when the
inner EVM call errs the returned state is the called state after
`state.Finalise(true)`, and when it does not err the state is left as the
call produced it. -/
theorem c4_apply_message {σ : Type} (call : σ → σ × Option GoError)
    (finalise : σ → σ) (st : σ) :
    (applyMessage call finalise st).2 = none ∧
      (applyMessage call finalise st).1
        = (match (call st).2 with
           | some _ => finalise (call st).1
           | none => (call st).1) := by
  unfold applyMessage
  cases h : (call st).2 <;> simp [h]

/-- C5: `CalcProducerDelay` equals `base + succession * backupMultiplier`
where `base` is `producerDelay` on sprint-start blocks and `period`
otherwise, whenever that sum does not overflow `uint64`. -/
theorem c5_calc_producer_delay (number succession : Nat) (c : BorConfig)
    (h : (if number % c.sprint == 0 then c.producerDelay else c.period)
          + succession * c.backupMultiplier < u64) :
    calcProducerDelay number succession c
      = (if number % c.sprint == 0 then c.producerDelay else c.period)
          + succession * c.backupMultiplier := by
  unfold calcProducerDelay
  set base := (if number % c.sprint == 0 then c.producerDelay else c.period) with hbase
  rcases Nat.eq_zero_or_pos succession with hs | hs
  · simp [hs]
  · have hmul : succession * c.backupMultiplier < u64 := by omega
    rw [if_pos hs, Nat.mod_eq_of_lt hmul, Nat.mod_eq_of_lt h]

/-- Witness for C5 at sprint-start block 4 with succession 1. -/
theorem c5_calc_producer_delay_witness :
    calcProducerDelay 4 1 ⟨2, 4, 6, 2⟩ = 8 := by
  have h := c5_calc_producer_delay 4 1 ⟨2, 4, 6, 2⟩ (by decide)
  simpa using h

/-- C1 counterexample: a sprint-end header whose validator region is
empty (0 bytes, not a positive multiple of 40) passes every standalone
check of `verifyHeader` — in particular it is NOT rejected with
`invalidSpanValidators`, because the code only tests
`signersBytes % 40 != 0` and `0 % 40 = 0`. -/
theorem c1_counterexample :
    sprintEndEmptyHeader.extra.length - extraVanity - extraSeal = 0 ∧
      (3 + 1) % (4 : Nat) = 0 ∧
      verifyHeaderStandalone ⟨2, 4, 6, 2⟩ 0 sprintEndEmptyHeader = none := by
  refine ⟨by decide, by decide, by decide⟩

/-- C1 (amended): for a sprint-end header that reaches the extra-data
checks (number present, not a future block, extra-data at least 97
bytes), the standalone checks of `verifyHeader` return
`invalidSpanValidators` exactly when the validator-byte region is not a
multiple of 40 — an empty region is allowed at this stage. -/
theorem c1_span_validators (c : BorConfig) (now : Nat) (h : Header) (n : Nat)
    (hn : h.number = some n)
    (hse : (n + 1) % c.sprint = 0)
    (ht : h.time ≤ now + allowFutureBlockTimeSeconds)
    (hlen : extraVanity + extraSeal ≤ h.extra.length) :
    verifyHeaderStandalone c now h = some .invalidSpanValidators ↔
      (h.extra.length - extraVanity - extraSeal) % validatorHeaderBytesLength ≠ 0 := by
  have h1 : ¬ (h.time > now + allowFutureBlockTimeSeconds) := by omega
  have hv : extraVanity = 32 := rfl
  have hs : extraSeal = 65 := rfl
  have h2 : ¬ (h.extra.length < extraVanity) := by omega
  have h3 : ¬ (h.extra.length < extraVanity + extraSeal) := by omega
  simp only [verifyHeaderStandalone, validateHeaderExtraField, hn, h1, h2, h3,
    if_false, ite_false, hse, beq_self_eq_true, Bool.not_true, Bool.false_and,
    Bool.true_and]
  by_cases hmod : (h.extra.length - extraVanity - extraSeal) % validatorHeaderBytesLength = 0
  · simp only [hmod, bne_self_eq_false, Bool.false_eq_true, if_false, ite_false,
      ne_eq, not_true_eq_false, iff_false]
    split
    · simp
    · split
      · simp
      · split <;> simp
  · simp only [ne_eq, hmod, not_false_eq_true, iff_true]
    have hb : ((h.extra.length - extraVanity - extraSeal) % validatorHeaderBytesLength != 0)
        = true := by simpa using hmod
    simp [hb]

/-- Witness for C1: the sprint-end header with a 1-byte validator region
is rejected with `invalidSpanValidators`. -/
theorem c1_span_validators_witness :
    verifyHeaderStandalone ⟨2, 4, 6, 2⟩ 0 sprintEndOddHeader
      = some .invalidSpanValidators := by
  exact (c1_span_validators ⟨2, 4, 6, 2⟩ 0 sprintEndOddHeader 3 rfl (by decide)
    (by decide) (by decide)).mpr (by decide)

/-- C7: with the header number present, `verifyHeader`'s standalone
checks never return `futureBlock` for a header timed exactly
`now + 3`, and always return `futureBlock` for a header timed strictly
later than `now + 3` (i.e. `now + 4` or later). -/
theorem c7_future_block (c : BorConfig) (now : Nat) (h : Header) (n : Nat)
    (hn : h.number = some n) :
    (h.time = now + allowFutureBlockTimeSeconds →
        verifyHeaderStandalone c now h ≠ some .futureBlock) ∧
    (now + allowFutureBlockTimeSeconds < h.time →
        verifyHeaderStandalone c now h = some .futureBlock) := by
  constructor
  · intro heq
    have h1 : ¬ (h.time > now + allowFutureBlockTimeSeconds) := by omega
    simp only [verifyHeaderStandalone, hn, h1, if_false, ite_false]
    cases hval : validateHeaderExtraField h.extra with
    | some e =>
      simp only [hval]
      unfold validateHeaderExtraField at hval
      split at hval
      · injection hval with h4
        subst h4
        simp
      · split at hval
        · injection hval with h4
          subst h4
          simp
        · exact Option.noConfusion hval
    | none =>
      simp only [hval]
      split
      · simp
      · split
        · simp
        · split
          · simp
          · split
            · simp
            · split <;> simp
  · intro hlt
    have h1 : h.time > now + allowFutureBlockTimeSeconds := by omega
    simp only [verifyHeaderStandalone, hn, h1, if_true, ite_true]

/-- Witness for C7: against `now = 0`, a header timed 3 is not a future
block while a header timed 4 is. -/
theorem c7_future_block_witness :
    verifyHeaderStandalone ⟨2, 4, 6, 2⟩ 0 timeThreeHeader ≠ some .futureBlock ∧
      verifyHeaderStandalone ⟨2, 4, 6, 2⟩ 0 timeFourHeader = some .futureBlock := by
  exact ⟨(c7_future_block ⟨2, 4, 6, 2⟩ 0 timeThreeHeader 1 rfl).1 rfl,
    (c7_future_block ⟨2, 4, 6, 2⟩ 0 timeFourHeader 1 rfl).2 (by decide)⟩

/-- C2 counterexample: with `lastStateID = 10` and fetched events
[10, 11], event 10 fails `id == lastStateID + 1`, so under the claim the
loop must break there and commit neither event, returning `([], 10)`.
The code instead skips event 10 with `continue` (its id is not above
`lastStateID`) and commits event 11. -/
theorem c2_counterexample :
    commitStates "15001" 100 10 [eventTen, eventEleven]
        = ([stateSyncOf eventEleven], 11) ∧
      commitStates "15001" 100 10 [eventTen, eventEleven] ≠ ([], 10) := by
  exact ⟨rfl, by decide⟩

/-- C2 (amended): events whose id is not above the running
`lastStateID` are skipped (`continue`) rather than breaking the loop;
for a fetched list whose ids strictly ascend starting above
`lastStateID` — as every Heimdall `from-id` query returns — the loop
commits exactly the maximal sequentially-valid leading run of events, in
order, breaking at the first validation failure without committing it or
anything later, and the final `lastStateID` advances by the number of
committed events. -/
theorem c2_commit_states (chainID : String) (toTime lastStateID : Nat)
    (events : List EventRecord)
    (h : idsAscendFrom lastStateID events = true) :
    commitStates chainID toTime lastStateID events
      = ((events.take (commitRunLen chainID toTime lastStateID events)).map stateSyncOf,
         lastStateID + commitRunLen chainID toTime lastStateID events) := by
  induction events generalizing lastStateID with
  | nil => simp [commitStates, commitRunLen]
  | cons e rest ih =>
    simp only [idsAscendFrom, Bool.and_eq_true, decide_eq_true_eq] at h
    obtain ⟨hlt, hrest⟩ := h
    simp only [commitStates, commitRunLen]
    rw [if_neg (by omega : ¬ e.id ≤ lastStateID)]
    by_cases hv : validateEventRecord e lastStateID toTime chainID
    · rw [if_pos hv, if_pos hv]
      have hid : e.id = lastStateID + 1 := by
        have := hv
        simp only [validateEventRecord, Bool.and_eq_true, beq_iff_eq,
          decide_eq_true_eq] at this
        omega
      have hrest' : idsAscendFrom (lastStateID + 1) rest = true := by
        rw [← hid]; exact hrest
      rw [ih (lastStateID + 1) hrest']
      simp only [List.take_succ_cons, List.map_cons, Prod.mk.injEq, true_and]
      omega
    · rw [if_neg hv, if_neg hv]
      simp

/-- Witness for C2, the spec's S6 scenario: `lastStateID = 10`, events
[11, 12, 14] — 11 and 12 are committed, 14 (a gap) is not, and the
final `lastStateID` is 12. -/
theorem c2_commit_states_witness :
    commitStates "15001" 100 10 [eventEleven, eventTwelve, eventFourteen]
      = ([stateSyncOf eventEleven, stateSyncOf eventTwelve], 12) := by
  have h := c2_commit_states "15001" 100 10
    [eventEleven, eventTwelve, eventFourteen] (by decide)
  rw [h]
  rfl

/-- C6: at a sprint boundary, when the span-commit step fails, or the
state-sync step fails (Heimdall enabled), `Finalize` surfaces no error
to its caller while `FinalizeAndAssemble` returns the same error and
produces no block. -/
theorem c6_finalize_asymmetry (number : Nat) (c : BorConfig)
    (withoutHeimdall : Bool) (spanResult : Option GoError)
    (statesResult : Except GoError (List StateSyncData))
    (codeChange : Option GoError) (e : GoError)
    (hb : number % c.sprint = 0)
    (hfail : spanResult = some e ∨
      (spanResult = none ∧ withoutHeimdall = false ∧ statesResult = .error e)) :
    (finalize number c withoutHeimdall spanResult statesResult codeChange).err
        = none ∧
      finalizeAndAssemble number c withoutHeimdall spanResult statesResult
        codeChange = .error e := by
  rcases hfail with hspan | ⟨hspan, hwh, hstates⟩
  · subst hspan
    simp [finalize, finalizeAndAssemble, hb]
  · subst hspan; subst hwh; subst hstates
    simp [finalize, finalizeAndAssemble, hb]

/-- Witness for C6 at block 4, sprint 4, with a failing span commit. -/
theorem c6_finalize_asymmetry_witness :
    (finalize 4 ⟨2, 4, 6, 2⟩ false (some ⟨"span fetch failed"⟩) (.ok []) none).err
        = none ∧
      finalizeAndAssemble 4 ⟨2, 4, 6, 2⟩ false (some ⟨"span fetch failed"⟩)
        (.ok []) none = .error ⟨"span fetch failed"⟩ := by
  exact c6_finalize_asymmetry 4 ⟨2, 4, 6, 2⟩ false (some ⟨"span fetch failed"⟩)
    (.ok []) none ⟨"span fetch failed"⟩ (by decide) (Or.inl rfl)

/-- C8: when `Prepare` reaches its timestamp assignment with a found
parent and a successful succession lookup for a non-zero signer (and
the `uint64` addition does not wrap), the prepared header time is
`max(parent.Time + CalcProducerDelay(number, succession, cfg), now)`. -/
theorem c8_prepare_time (pt succession number now : Nat) (c : BorConfig)
    (h : pt + calcProducerDelay number succession c < u64) :
    prepareTime (some pt) false (.ok succession) number now c
      = .ok (max (pt + calcProducerDelay number succession c) now) := by
  simp only [prepareTime, Bool.false_eq_true, if_false, ite_false]
  rw [Nat.mod_eq_of_lt h]
  congr 1
  rcases Nat.lt_or_ge (pt + calcProducerDelay number succession c) now with hc | hc
  · rw [if_pos hc, Nat.max_eq_right (Nat.le_of_lt hc)]
  · rw [if_neg (by omega), Nat.max_eq_left hc]

/-- Witness for C8: parent time 100, sprint-start block 4 with
succession 1 under config (period 2, sprint 4, producerDelay 6,
backupMultiplier 2): delay 8, so time is `max(108, now)` — 108 for
`now = 50` and 200 for `now = 200`. -/
theorem c8_prepare_time_witness :
    prepareTime (some 100) false (.ok 1) 4 50 ⟨2, 4, 6, 2⟩ = .ok 108 ∧
      prepareTime (some 100) false (.ok 1) 4 200 ⟨2, 4, 6, 2⟩ = .ok 200 := by
  constructor
  · have h := c8_prepare_time 100 1 4 50 ⟨2, 4, 6, 2⟩ (by decide)
    rw [h]; rfl
  · have h := c8_prepare_time 100 1 4 200 ⟨2, 4, 6, 2⟩ (by decide)
    rw [h]; rfl

/-- C9: `Seal` returns the unknown-block error for every block numbered
0, and on a 0-period chain a block with no transactions makes it return
immediately with no error and no emission to the results channel. -/
theorem c9_seal_gate (number period txCount : Nat) (h : number ≠ 0) :
    sealGate 0 period txCount = .fail errUnknownBlock ∧
      sealGate number 0 0 = .skipSealing := by
  constructor
  · rfl
  · simp [sealGate, h]

/-- Witness for C9 at block 1. -/
theorem c9_seal_gate_witness :
    sealGate 0 2 5 = .fail errUnknownBlock ∧ sealGate 1 0 0 = .skipSealing :=
  c9_seal_gate 1 2 5 (by decide)

/-- C10: when the `ethAPI.Call` fails, `GetCurrentValidators` panics
with that error instead of returning it, while its sibling
`GetCurrentValidatorsByBlockNrOrHash` returns the same error to the
caller. -/
theorem c10_get_current_validators (data : List Nat) (e : GoError)
    (call : List Nat → Except GoError (List Nat))
    (unpack : List Nat → Except GoError (List Validator))
    (h : call data = .error e) :
    getCurrentValidators (.ok data) call unpack = .panics e ∧
      getCurrentValidatorsByBlockNrOrHash (.ok data) call unpack = .fail e := by
  constructor
  · simp [getCurrentValidators, h]
  · simp [getCurrentValidatorsByBlockNrOrHash, h]

/-- Witness for C10 with a call that fails with "eth call failed". -/
theorem c10_get_current_validators_witness :
    getCurrentValidators (.ok [1]) (fun _ => .error ⟨"eth call failed"⟩)
        (fun _ => .ok []) = .panics ⟨"eth call failed"⟩ ∧
      getCurrentValidatorsByBlockNrOrHash (.ok [1])
        (fun _ => .error ⟨"eth call failed"⟩) (fun _ => .ok [])
        = .fail ⟨"eth call failed"⟩ :=
  c10_get_current_validators [1] ⟨"eth call failed"⟩
    (fun _ => .error ⟨"eth call failed"⟩) (fun _ => .ok []) rfl

end Bor
